import Mathlib

/-!
Verification development for the note / Google-Docs synchronization scripts:
the file-backed binding store (`lib/mapping.js`), the change poller
(`scripts/changesPoller.js`), the pull-compare-push coordinator
(`scripts/pullPushByNote.js`), and the markdown-to-Docs parser/projector
(`mdToDocs` script).  JS objects are modelled as association lists, machine
integers as `Nat`/`Int`, and fallible reads as `Option`.
-/

/-! ## Association-list maps (JS plain objects keyed by strings) -/

/-- First-match lookup in an association list (JS `map[key]`, `null` when absent). -/
def mlookup {α : Type} : List (String × α) → String → Option α
  | [], _ => none
  | (k, v) :: t, key => if k = key then some v else mlookup t key

/-- Assignment `map[key] = v`: replace the first entry with this key, or append a new one.
JS objects have unique keys, so replace-first matches object assignment. -/
def mset {α : Type} : List (String × α) → String → α → List (String × α)
  | [], key, v => [(key, v)]
  | (k, w) :: t, key, v => if k = key then (key, v) :: t else (k, w) :: mset t key v

theorem mlookup_mset_self {α : Type} (l : List (String × α)) (k : String) (v : α) :
    mlookup (mset l k v) k = some v := by
  induction l with
  | nil => simp [mset, mlookup]
  | cons h t ih =>
    obtain ⟨k', w⟩ := h
    by_cases hk : k' = k
    · simp [mset, hk, mlookup]
    · simp [mset, hk, mlookup, ih]

theorem mset_mset_self {α : Type} (l : List (String × α)) (k : String) (v : α) :
    mset (mset l k v) k v = mset l k v := by
  induction l with
  | nil => simp [mset]
  | cons h t ih =>
    obtain ⟨k', w⟩ := h
    by_cases hk : k' = k
    · simp [mset, hk]
    · simp [mset, hk, ih]

/-! ## Binding records (`lib/mapping.js`)

A record in `mapping.json` is a JS object whose fields are all optional;
`{ ...old, ...new }` merges with the right operand's present fields winning. -/

/-- One binding record: the fields this repository ever stores for a note. -/
structure Rec where
  fileId : Option String := none
  tabId : Option String := none
  lastKnownRevisionId : Option Nat := none
  lastSyncTs : Option Nat := none
  accessLost : Option Bool := none
  deriving Repr, DecidableEq

/-- The empty record (`{}`; also what spreading `undefined` contributes). -/
def emptyRec : Rec := {}

/-- JS object spread `{ ...old, ...nw }`: fields present on `nw` override `old`. -/
def mergeRec (old nw : Rec) : Rec where
  fileId := nw.fileId.orElse fun _ => old.fileId
  tabId := nw.tabId.orElse fun _ => old.tabId
  lastKnownRevisionId := nw.lastKnownRevisionId.orElse fun _ => old.lastKnownRevisionId
  lastSyncTs := nw.lastSyncTs.orElse fun _ => old.lastSyncTs
  accessLost := nw.accessLost.orElse fun _ => old.accessLost

/-- In-memory shape every store operation works on after `loadMapping`. -/
structure Mapping where
  notes : List (String × Rec)
  notebooks : List (String × Rec)
  deriving Repr, DecidableEq

/-- The persisted `mapping.json` file, as the store can find it on disk:
missing, unreadable, invalid JSON, a legacy flat note map (a JSON object
with neither a `notes` nor a `notebooks` key), or the namespaced shape
(each namespace possibly absent). -/
inductive StoredFile where
  | missing
  | unreadable
  | corrupt
  | flat (m : List (String × Rec))
  | namespaced (notes : Option (List (String × Rec))) (notebooks : Option (List (String × Rec)))
  deriving Repr, DecidableEq

/-- Function `loadMapping` of `lib/mapping.js`: read and parse the store file; any
read/parse failure yields `{ notes: {}, notebooks: {} }`; a legacy flat map
is promoted to the `notes` namespace; missing namespaces are filled in. -/
def loadMapping : StoredFile → Mapping
  | .missing => ⟨[], []⟩
  | .unreadable => ⟨[], []⟩
  | .corrupt => ⟨[], []⟩
  | .flat m => ⟨m, []⟩
  | .namespaced n b => ⟨n.getD [], b.getD []⟩

/-- Function `saveMapping`: serialize the namespaced object back to the file. -/
def saveMapping (m : Mapping) : StoredFile :=
  .namespaced (some m.notes) (some m.notebooks)

/-- Operation `bindNote(noteId, binding)`: merge into the existing record or create one,
then write the whole store.  Returns the new file state and the record. -/
def bindNote (noteId : String) (binding : Rec) (file : StoredFile) : StoredFile × Rec :=
  let map := loadMapping file
  let r := mergeRec ((mlookup map.notes noteId).getD emptyRec) binding
  (saveMapping { map with notes := mset map.notes noteId r }, r)

/-- Operation `getBinding(noteId)`: the record, or `null` when absent.  Read-only. -/
def getBinding (noteId : String) (file : StoredFile) : Option Rec :=
  mlookup (loadMapping file).notes noteId

/-- Operation `updateSyncCheckpoint(noteId, checkpoint)`: merge into the existing
record; when the record is absent, return `null` without writing the file. -/
def updateSyncCheckpoint (noteId : String) (checkpoint : Rec) (file : StoredFile) :
    StoredFile × Option Rec :=
  match mlookup (loadMapping file).notes noteId with
  | none => (file, none)
  | some r =>
    (saveMapping { loadMapping file with
        notes := mset (loadMapping file).notes noteId (mergeRec r checkpoint) },
      some (mergeRec r checkpoint))

/-- Operation `markAccessLost(noteId)`: set `accessLost = true` on the existing record;
when the record is absent, return `null` without writing the file. -/
def markAccessLost (noteId : String) (file : StoredFile) : StoredFile × Option Rec :=
  match mlookup (loadMapping file).notes noteId with
  | none => (file, none)
  | some r =>
    (saveMapping { loadMapping file with
        notes := mset (loadMapping file).notes noteId { r with accessLost := some true } },
      some { r with accessLost := some true })

/-- Function `findNoteIdByFileId`: scan the note entries in order, returning the first
note whose binding's `fileId` equals the given file id. -/
def findNoteId (fileId : String) : List (String × Rec) → Option String
  | [] => none
  | (n, r) :: t => if r.fileId = some fileId then some n else findNoteId fileId t

/-- Function `findNoteIdByFileId(fileId)` over the persisted store file. -/
def findNoteIdByFileId (fileId : String) (file : StoredFile) : Option String :=
  findNoteId fileId (loadMapping file).notes

/-! ## Markdown to Docs parser/projector (the `mdToDocs` script)

The script parses the markdown file into a plain-text buffer plus paragraph
style ranges and inline text style ranges, then clears the tab and applies
them.  Lines are lists of characters; a JS string index is a `Nat`, but the
computed range offsets are `Int` because the script subtracts a removal
offset.  Style names are the strings used by the script (default mapping). -/

/-- Backtick character (the fence delimiter). -/
def fenceChar : Char := Char.ofNat 96

/-- Whitespace for the script's regexes (space and tab; the split lines
contain no newlines, carriage returns are normalized away beforehand). -/
def isWs (c : Char) : Bool := c = ' ' ∨ c = '\t'

/-- Character class of a fence language tag: `[a-zA-Z0-9_-]`. -/
def isTagChar (c : Char) : Bool :=
  (('a' ≤ c ∧ c ≤ 'z') ∨ ('A' ≤ c ∧ c ≤ 'Z') ∨ ('0' ≤ c ∧ c ≤ '9') ∨ c = '_' ∨ c = '-')

/-- Fence test, the regex anchored on the whole line: three backticks, then
optional whitespace, an optional language tag, optional whitespace, end.
Returns the captured tag when the line is a fence delimiter. -/
def fenceTag (l : List Char) : Option (List Char) :=
  if l.take 3 = List.replicate 3 fenceChar then
    let rest := (l.drop 3).dropWhile isWs
    let tag := rest.takeWhile isTagChar
    if (rest.drop tag.length).all isWs then some tag else none
  else none

/-- Tests whether the line starts with exactly `n` hash marks followed by a
whitespace character (the regexes `^#\s`, `^##\s`, `^###\s`; a test for a
prefix of `#{n}\s+` only needs the first whitespace character). -/
def startsHashWs (n : Nat) (l : List Char) : Bool :=
  l.take n = List.replicate n '#' ∧ (l.get? n).any isWs

/-- Function `paragraphStyleFor` with the default mapping: note the script
tests `^#\s+` before `^##\s+`, but a line passing `^##\s+` fails `^#\s+`
(its second character is a hash, not whitespace), so the tests are disjoint. -/
def paragraphStyleFor (l : List Char) : String :=
  if startsHashWs 1 l then "HEADING_1"
  else if startsHashWs 2 l then "HEADING_2"
  else if startsHashWs 3 l then "HEADING_3"
  else "NORMAL_TEXT"

/-- Function `stripHeadingMarkers`: remove one match of `^#{1,6}\s+` (one to
six leading hashes and the maximal following whitespace run). -/
def stripHeadingMarkers (l : List Char) : List Char :=
  let hashes := (l.takeWhile (· = '#')).length
  if 1 ≤ hashes ∧ hashes ≤ 6 ∧ (l.get? hashes).any isWs then
    (l.drop hashes).dropWhile isWs
  else l

/-- A collected inline text style range (`textRanges` entries). -/
structure TextRange where
  start : Int
  stop : Int
  bold : Bool := false
  italic : Bool := false
  deriving Repr, DecidableEq

/-- A collected paragraph style range (`paraRanges` entries).  The `stop`
field is the script's `end` (the newline terminator excluded). -/
structure ParaRange where
  start : Nat
  stop : Nat
  style : String
  deriving Repr, DecidableEq

/-- Matches one of the inline patterns at a fixed position: a run of `d`
delimiter characters `c`, a non-empty maximal run of non-`c` characters
(the capture; the character class excludes the delimiter, so the regex
cannot backtrack into a successful match), and `d` closing delimiters.
Returns the capture length. -/
def matchAt (c : Char) (d : Nat) (l : List Char) (i : Nat) : Option Nat :=
  let t := l.drop i
  if t.take d = List.replicate d c then
    let u := t.drop d
    let r := (u.takeWhile (· ≠ c)).length
    if 1 ≤ r ∧ (u.drop r).take d = List.replicate d c then some r else none
  else none

/-- Regex scan: the first position at or after `i` where the pattern
matches, mirroring `re.exec` with `re.lastIndex = i`.  The fuel counts the
remaining candidate positions (`l.length + 1 - i`). -/
def scanFrom (c : Char) (d : Nat) (l : List Char) : Nat → Nat → Option (Nat × Nat)
  | 0, _ => none
  | fuel + 1, i =>
    match matchAt c d l i with
    | some r => some (i, r)
    | none => scanFrom c d l fuel (i + 1)

/-- Find a match at or after position `i` (exec with `lastIndex = i`). -/
def findFrom (c : Char) (d : Nat) (l : List Char) (i : Nat) : Option (Nat × Nat) :=
  scanFrom c d l (l.length + 1 - i) i

/-- One `applyInline` pass of the script: repeatedly exec the pattern on the
mutating line; each match records a range at `cursor + (m.index - offset)`,
replaces the match by its capture in the line, adds the removed marker width
(`2*d`) to `offset`, and resumes at `m.index + capture.length`.  Each match
shortens the line, so fuel `line.length + 1` is never exhausted. -/
def runInline (c : Char) (d : Nat) (mk : Int → Int → TextRange) (cursor : Nat) :
    Nat → List Char → Nat → Nat → List TextRange → List Char × List TextRange
  | 0, line, _, _, acc => (line, acc)
  | fuel + 1, line, lastIndex, offset, acc =>
    match findFrom c d line lastIndex with
    | none => (line, acc)
    | some (i, r) =>
      let startInLine : Int := (i : Int) - (offset : Int)
      let stopInLine : Int := startInLine + (r : Int)
      let acc' := acc ++ [mk ((cursor : Int) + startInLine) ((cursor : Int) + stopInLine)]
      let inner := (line.drop (i + d)).take r
      let line' := line.take i ++ inner ++ line.drop (i + r + 2 * d)
      runInline c d mk cursor fuel line' (i + r) (offset + 2 * d) acc'

/-- One full `applyInline(re, updater)` call on a line. -/
def applyInline (c : Char) (d : Nat) (mk : Int → Int → TextRange) (cursor : Nat)
    (line : List Char) : List Char × List TextRange :=
  runInline c d mk cursor (line.length + 1) line 0 0 []

/-- Mapping configuration: the heading names come from `md-mapping.json`
(modelled at their defaults), `useTitle` is `mapping.title.useTitle`, and
`subtitleItalic` is `mapping.subtitle.mode === 'italic'`. -/
structure MdMapping where
  useTitle : Bool
  subtitleItalic : Bool
  deriving Repr, DecidableEq

/-- Parser state carried across lines: the flat buffer, both range lists,
the running cursor, and the fence toggle (plus the stored tag). -/
structure PState where
  plain : List Char := []
  paraRanges : List ParaRange := []
  textRanges : List TextRange := []
  cursor : Nat := 0
  inFence : Bool := false
  fenceLang : List Char := []
  deriving Repr, DecidableEq

/-- Loop body of the build loop (`for` over `lines`): toggle on a fence
delimiter line (consumed, not emitted); otherwise choose the paragraph
style (`CODEBLOCK` inside a fence), strip heading markers only outside a
fence, run the three inline passes (the script runs them unconditionally,
inside fences too), then append the line plus a newline to the buffer and
record the paragraph range with the terminator excluded. -/
def processLine (st : PState) (original : List Char) : PState :=
  match fenceTag original with
  | some tag =>
    { st with inFence := ¬st.inFence, fenceLang := if ¬st.inFence then tag else [] }
  | none =>
    let namedStyleType := if st.inFence then "CODEBLOCK" else paragraphStyleFor original
    let line0 := if st.inFence then original else stripHeadingMarkers original
    let (line1, tr1) :=
      applyInline '*' 2 (fun s e => { start := s, stop := e, bold := true }) st.cursor line0
    let (line2, tr2) :=
      applyInline '*' 1 (fun s e => { start := s, stop := e, italic := true }) st.cursor line1
    let (line3, tr3) :=
      applyInline '_' 1 (fun s e => { start := s, stop := e, italic := true }) st.cursor line2
    let start := st.cursor
    let stop := start + line3.length
    { st with
      plain := st.plain ++ line3 ++ ['\n']
      paraRanges := st.paraRanges ++ [{ start := start, stop := stop, style := namedStyleType }]
      textRanges := st.textRanges ++ tr1 ++ tr2 ++ tr3
      cursor := stop + 1 }

/-- Replace the style of the range at position `i` (JS `paraRanges[i].style = s`). -/
def setStyleAt (l : List ParaRange) (i : Nat) (sty : String) : List ParaRange :=
  match l.get? i with
  | some r => l.set i { r with style := sty }
  | none => l

/-- Post passes over the range lists: promote the first paragraph to `TITLE`
when configured (the script does this twice, idempotently), then promote the
second paragraph to `SUBTITLE` when configured and some recorded italic
range fully covers it. -/
def promote (cfg : MdMapping) (st : PState) : PState :=
  let st1 :=
    if cfg.useTitle ∧ st.paraRanges.length > 0 then
      { st with paraRanges := setStyleAt st.paraRanges 0 "TITLE" }
    else st
  if cfg.subtitleItalic ∧ st1.paraRanges.length > 1 then
    match st1.paraRanges.get? 1 with
    | some second =>
      if st1.textRanges.any
          (fun r => r.italic ∧ r.start ≤ (second.start : Int) ∧ (second.stop : Int) ≤ r.stop) then
        { st1 with paraRanges := setStyleAt st1.paraRanges 1 "SUBTITLE" }
      else st1
    | none => st1
  else st1

/-- Newline normalization: `\r\n` to `\n`, then any remaining `\r` to `\n`. -/
def normalizeNl : List Char → List Char
  | [] => []
  | '\r' :: '\n' :: t => '\n' :: normalizeNl t
  | c :: t => (if c = '\r' then '\n' else c) :: normalizeNl t

/-- JS `String.split('\n')`: one piece more than separators; `""` gives `[""]`. -/
def splitNl : List Char → List (List Char)
  | [] => [[]]
  | '\n' :: t => [] :: splitNl t
  | c :: t =>
    match splitNl t with
    | h :: r => (c :: h) :: r
    | [] => [[c]]

/-- Parse-and-project pipeline of the `mdToDocs` script: normalize newlines,
split into lines, run the build loop, then the promotion passes. -/
def mdToDocsParse (cfg : MdMapping) (md : String) : PState :=
  promote cfg ((splitNl (normalizeNl md.data)).foldl processLine {})

/-! ## Pull-compare-push coordinator (`scripts/pullPushByNote.js`)

The script pulls the bound tab's text and the document revision, compares
the text verbatim against the local file, and only when they differ submits
one guarded `batchUpdate` (delete the current content range, insert the
local text, `writeControl.requiredRevisionId` set to the pulled revision).
The remote service itself is outside the repository; its behaviour is
modelled from the external-interface contract of the specification. -/

/-- A remote sub-unit as the coordinator sees it: the opaque revision token
(a `Nat`) and the pullable tab text. -/
structure RemoteUnit where
  revision : Nat
  content : String
  deriving Repr, DecidableEq

/-- One request of the push batch, as the script builds it. -/
inductive DocRequest where
  | deleteContentRange (startIndex endIndex : Nat)
  | insertText (index : Nat) (text : String)
  deriving Repr, DecidableEq

/-- Outcome of a guarded edit submission. -/
inductive EditOutcome where
  | ok
  | conflict
  deriving Repr, DecidableEq

/-- Request list the script submits: delete the full current content range
`[1, endIndex - 1)` when the unit is non-empty, then insert the local text
at index 1.  The pulled `endIndex` is one past the content (the remote
index space starts at 1). -/
def buildPushRequests (endIndex : Nat) (localText : String) : List DocRequest :=
  (if endIndex > 1 then [DocRequest.deleteContentRange 1 (endIndex - 1)] else [])
    ++ [DocRequest.insertText 1 localText]

/-- Modelled from the spec: the concrete remote service (the Docs API) is
not part of the repository; per the external contract, the push batch
"delete the full current content range followed by insert of the new local
text" replaces the unit's pullable content with the inserted text. -/
def applyPushRequests (content : String) (reqs : List DocRequest) : String :=
  reqs.foldl
    (fun c r =>
      match r with
      | DocRequest.deleteContentRange _ _ => ""
      | DocRequest.insertText _ t => c ++ t)
    content

/-- Modelled from the spec: `applyEdits(docId, ops, { requiredRevision })`
of the external contract — when the guard matches the unit's current
revision the edits apply atomically and the revision advances; otherwise
the submission is rejected and the unit is left unmodified. -/
def applyEdits (u : RemoteUnit) (reqs : List DocRequest) (requiredRevision : Nat) :
    RemoteUnit × EditOutcome :=
  if requiredRevision = u.revision then
    ({ revision := u.revision + 1, content := applyPushRequests u.content reqs },
      EditOutcome.ok)
  else (u, EditOutcome.conflict)

/-- Outcome of one run of the push script, as surfaced to the caller:
"No diff: skip push" (exit 0), a successful push (exit 0), or the guarded
rejection surfaced as the distinct conflict outcome (exit 4). -/
inductive PushOutcome where
  | noDiff
  | pushed
  | revisionConflict
  deriving Repr, DecidableEq

/-- One run of the pull-compare-push path.  `uPull` is the unit state the
script pulls (text and revision — its last known revision); `uNow` is the
unit's state when the `batchUpdate` arrives (a concurrent edit may have
advanced it).  Returns the final remote state, the surfaced outcome, and
the number of `batchUpdate` write calls made. -/
def pushRun (uPull uNow : RemoteUnit) (localText : String) :
    RemoteUnit × PushOutcome × Nat :=
  let remoteText := uPull.content
  let revisionId := uPull.revision
  if remoteText = localText then (uNow, PushOutcome.noDiff, 0)
  else
    let endIndex := uPull.content.length + 1
    let reqs := buildPushRequests endIndex localText
    match applyEdits uNow reqs revisionId with
    | (u', EditOutcome.ok) => (u', PushOutcome.pushed, 1)
    | (u', EditOutcome.conflict) => (u', PushOutcome.revisionConflict, 1)

/-! ## Change poller (`scripts/changesPoller.js`)

The poller keeps an opaque cursor in `changes.state.json`, lists change
pages from it, and for each change resolves the file id to a bound note:
a removed change marks the binding access-lost and skips; otherwise it
re-pulls the bound tab, overwrites the note's shadow file, and updates the
binding's revision checkpoint.  The rendering of a pulled tab to markdown
(`extractParagraphs`, `runsToMarkdown`, title/subtitle reconstruction) is a
deterministic function of the tab, so the environment carries each tab as
its already-rendered text; remote fetches are assumed to succeed (a thrown
fetch aborts the tick and is outside these claims). -/

/-- One entry of a change page (`changes(fileId, removed, ...)`). -/
structure Change where
  fileId : String
  removed : Bool
  deriving Repr, DecidableEq

/-- One page of `drive.changes.list`. -/
structure Page where
  changes : List Change
  nextPageToken : Option Nat
  newStartPageToken : Option Nat
  deriving Repr, DecidableEq

/-- A pulled document: its revision and its tabs, each tab carried as the
markdown text the poller's extraction pipeline renders for it. -/
structure DocMeta where
  revisionId : Nat
  tabs : List (String × String)
  deriving Repr, DecidableEq

/-- The remote document service seen by the poller (`docs.documents.get`). -/
def DocsEnv : Type := String → DocMeta

/-- Poller-visible persistent state: the binding store file, the shadow
files directory, and the cursor state file (`none` when it is missing,
unreadable, or has no `pageToken`). -/
structure PollerState where
  mapping : StoredFile
  shadows : List (String × String)
  stateFile : Option Nat
  deriving Repr, DecidableEq

/-- Checkpoint fields the pull branch merges into the binding:
`{ lastKnownRevisionId: meta.data.revisionId, lastSyncTs: new Date(...) }`. -/
def pullCheckpoint (revisionId ts : Nat) : Rec :=
  { emptyRec with lastKnownRevisionId := some revisionId, lastSyncTs := some ts }

/-- Body of the change loop (`for (const ch of data.changes)`): resolve the
file id via reverse lookup, skip unbound files; on a removed change mark
access lost and skip; otherwise require a binding with a tab id, pull the
document, find the tab, overwrite the shadow text, and merge the new
revision and timestamp into the binding. -/
def applyChange (env : DocsEnv) (ts : Nat) (s : PollerState) (ch : Change) : PollerState :=
  match findNoteIdByFileId ch.fileId s.mapping with
  | none => s
  | some noteId =>
    if ch.removed then
      { s with mapping := (markAccessLost noteId s.mapping).1 }
    else
      match getBinding noteId s.mapping with
      | none => s
      | some binding =>
        match binding.tabId with
        | none => s
        | some tabId =>
          match mlookup (env ch.fileId).tabs tabId with
          | none => s
          | some mdOut =>
            { s with
              shadows := mset s.shadows noteId mdOut
              mapping :=
                (updateSyncCheckpoint noteId
                  (pullCheckpoint (env ch.fileId).revisionId ts) s.mapping).1 }

/-- Page loop of `processOnce`: fetch the page at the current token and
process its changes; on a continuation token recurse with the cursor
advanced in memory only; on the final page persist `newStartPageToken`
(falling back to the current token) and stop.  Fuel exhaustion models a
crash or interruption mid-tick: the loop stops without persisting.
Returns the final state and the list of changes examined. -/
def pageLoop (env : DocsEnv) (ts : Nat) (feed : Nat → Page) :
    Nat → Nat → PollerState → PollerState × List Change
  | 0, _, s => (s, [])
  | fuel + 1, tok, s =>
    match (feed tok).nextPageToken with
    | some t' =>
      ((pageLoop env ts feed fuel t' ((feed tok).changes.foldl (applyChange env ts) s)).1,
        (feed tok).changes ++
          (pageLoop env ts feed fuel t' ((feed tok).changes.foldl (applyChange env ts) s)).2)
    | none =>
      ({ (feed tok).changes.foldl (applyChange env ts) s with
          stateFile := some ((feed tok).newStartPageToken.getD tok) },
        (feed tok).changes)

/-- Function `processOnce`: return immediately when no cursor is stored
(first run was just initialized), else run the page loop from it. -/
def processOnce (env : DocsEnv) (ts : Nat) (feed : Nat → Page) (fuel : Nat)
    (s : PollerState) : PollerState × List Change :=
  match s.stateFile with
  | none => (s, [])
  | some tok => pageLoop env ts feed fuel tok s

/-- Function `initIfNeeded`: keep an existing cursor; otherwise fetch the
feed's current position token, persist it, and flag the first run. -/
def initIfNeeded (cursorNow : Nat) (s : PollerState) : PollerState × Bool :=
  match s.stateFile with
  | some _ => (s, false)
  | none => ({ s with stateFile := some cursorNow }, true)

/-- Function `main` without `--watch`: after a first-run initialization it
returns before calling `processOnce`; otherwise it runs one tick. -/
def mainNonWatch (env : DocsEnv) (ts : Nat) (feed : Nat → Page) (fuel : Nat)
    (cursorNow : Nat) (s : PollerState) : PollerState × List Change :=
  let (s1, first) := initIfNeeded cursorNow s
  if first then (s1, []) else processOnce env ts feed fuel s1

/-- The change feed as an append-only global sequence: a token is a position
in it, a page at a token returns the next `k` changes, a continuation token
while more remain, and the feed's current position as `newStartPageToken`. -/
def feedOf (all : List Change) (k : Nat) : Nat → Page :=
  fun tok =>
    { changes := (all.drop tok).take k
      nextPageToken := if tok + k < all.length then some (tok + k) else none
      newStartPageToken := some all.length }

/-- Current position token of the feed (`changes.getStartPageToken`). -/
def getCurrentCursor (all : List Change) : Nat := all.length

/-- Whether the page loop reaches a page without a continuation token
within the given fuel (mirrors the recursion of `pageLoop`). -/
def reachesFinal (feed : Nat → Page) : Nat → Nat → Bool
  | 0, _ => false
  | fuel + 1, tok =>
    match (feed tok).nextPageToken with
    | some t' => reachesFinal feed fuel t'
    | none => true

/-! ## Helper lemmas -/

theorem loadMapping_saveMapping (m : Mapping) : loadMapping (saveMapping m) = m := rfl

/-- Projection of a note map to the data the reverse lookup reads. -/
def keysFileIds (l : List (String × Rec)) : List (String × Option String) :=
  l.map fun p => (p.1, p.2.fileId)

theorem findNoteId_congr (fid : String) :
    ∀ l l' : List (String × Rec), keysFileIds l = keysFileIds l' →
      findNoteId fid l = findNoteId fid l' := by
  intro l
  induction l with
  | nil =>
    intro l' h
    cases l' with
    | nil => rfl
    | cons q t' => simp [keysFileIds] at h
  | cons p t ih =>
    intro l' h
    cases l' with
    | nil => simp [keysFileIds] at h
    | cons q t' =>
      simp only [keysFileIds, List.map_cons, List.cons.injEq, Prod.mk.injEq] at h
      obtain ⟨⟨hk, hf⟩, ht⟩ := h
      simp only [findNoteId, hf, hk, ih t' ht]

theorem keysFileIds_cons (p : String × Rec) (t : List (String × Rec)) :
    keysFileIds (p :: t) = (p.1, p.2.fileId) :: keysFileIds t := rfl

theorem keysFileIds_mset (l : List (String × Rec)) (k : String) (v r : Rec)
    (hl : mlookup l k = some r) (hv : v.fileId = r.fileId) :
    keysFileIds (mset l k v) = keysFileIds l := by
  induction l with
  | nil => simp [mlookup] at hl
  | cons p t ih =>
    obtain ⟨k', w⟩ := p
    by_cases hk : k' = k
    · subst hk
      have hw : w = r := by simpa [mlookup] using hl
      have hm : mset ((k', w) :: t) k' v = (k', v) :: t := by simp [mset]
      rw [hm, keysFileIds_cons, keysFileIds_cons]
      simp [hv, hw]
    · simp only [mlookup, if_neg hk] at hl
      have hm : mset ((k', w) :: t) k v = (k', w) :: mset t k v := by simp [mset, hk]
      rw [hm, keysFileIds_cons, keysFileIds_cons, ih hl]

theorem applyChange_stateFile (env : DocsEnv) (ts : Nat) (s : PollerState) (ch : Change) :
    (applyChange env ts s ch).stateFile = s.stateFile := by
  unfold applyChange
  repeat' split
  all_goals rfl

theorem foldl_applyChange_stateFile (env : DocsEnv) (ts : Nat) (cs : List Change)
    (s : PollerState) : (cs.foldl (applyChange env ts) s).stateFile = s.stateFile := by
  induction cs generalizing s with
  | nil => rfl
  | cons c t ih => simpa [List.foldl, applyChange_stateFile] using ih (applyChange env ts s c)

theorem applyChange_removed_shadows (env : DocsEnv) (ts : Nat) (s : PollerState)
    (ch : Change) (h : ch.removed = true) : (applyChange env ts s ch).shadows = s.shadows := by
  unfold applyChange
  cases findNoteIdByFileId ch.fileId s.mapping with
  | none => rfl
  | some noteId => simp [h]

/-! ## Claim theorems -/

/-- C10: for every persisted store-file state — absent, unreadable, invalid
JSON, a legacy flat note map, or a namespaced map — `loadMapping` returns an
object with both a notes map and a notebooks map (totality of the function,
no throw): read or parse failure yields the empty namespaced shape, and a
legacy flat map is promoted to the notes namespace. -/
theorem loadMappingTotalShape (m : List (String × Rec))
    (n b : Option (List (String × Rec))) :
    loadMapping StoredFile.missing = ⟨[], []⟩ ∧
    loadMapping StoredFile.unreadable = ⟨[], []⟩ ∧
    loadMapping StoredFile.corrupt = ⟨[], []⟩ ∧
    loadMapping (StoredFile.flat m) = ⟨m, []⟩ ∧
    loadMapping (StoredFile.namespaced n b) = ⟨n.getD [], b.getD []⟩ :=
  ⟨rfl, rfl, rfl, rfl, rfl⟩

/-- C3: evaluation at the failing input.  Inside a fence the build loop
still runs the inline passes, so for the input of a fence line followed by
the line containing doubled markers, the emitted code line is not verbatim:
the markers are stripped from the buffer and a bold text range is recorded,
although the paragraph is styled `CODEBLOCK`.  The claim — and the spec —
say every line inside a fence is emitted verbatim with no inline-style
scanning. -/
theorem fenceInlineScanBug :
    (mdToDocsParse ⟨false, false⟩ "```\n**x**").plain = ("x\n").data ∧
    (mdToDocsParse ⟨false, false⟩ "```\n**x**").paraRanges =
      [⟨0, 1, "CODEBLOCK"⟩] ∧
    (mdToDocsParse ⟨false, false⟩ "```\n**x**").textRanges =
      [{ start := 0, stop := 1, bold := true }] := by
  decide

/-- C7: evaluation at the failing input.  The inline scan subtracts the
accumulated removal offset from a match index that is already measured on
the de-marked line, so the second bold span of a line with two bold spans
is recorded with negative offsets: the input of two doubled-marker spans
yields a text range starting at -2, violating the claimed invariant that
every emitted range satisfies `0 ≤ start`. -/
theorem inlineRangeBoundsBug :
    (mdToDocsParse ⟨false, false⟩ "**a** **b**").plain = ("a b\n").data ∧
    (mdToDocsParse ⟨false, false⟩ "**a** **b**").textRanges =
      [{ start := 0, stop := 1, bold := true },
       { start := -2, stop := -1, bold := true }] ∧
    ((mdToDocsParse ⟨false, false⟩ "**a** **b**").textRanges.any
      fun r => r.start < 0) = true := by
  decide

/-- C4, counterexample: on the scenario input the pipeline does not produce
the claimed buffer (the blank separator line is emitted as an empty
paragraph) nor the claimed bold range. -/
theorem parseScenarioCounterexample :
    (mdToDocsParse ⟨true, false⟩ "# T\n\nA **b** c").plain ≠ ("T\nA b c\n").data ∧
    (mdToDocsParse ⟨true, false⟩ "# T\n\nA **b** c").textRanges ≠
      [{ start := 4, stop := 5, bold := true }] := by
  decide

/-- C4, amended: with Title promotion enabled the scenario input yields the
buffer with the blank line preserved as an empty paragraph, paragraph
ranges for title, empty separator, and body, and the bold range shifted
accordingly. -/
theorem parseScenarioAmended :
    (mdToDocsParse ⟨true, false⟩ "# T\n\nA **b** c").plain = ("T\n\nA b c\n").data ∧
    (mdToDocsParse ⟨true, false⟩ "# T\n\nA **b** c").paraRanges =
      [⟨0, 1, "TITLE"⟩, ⟨2, 2, "NORMAL_TEXT"⟩, ⟨3, 8, "NORMAL_TEXT"⟩] ∧
    (mdToDocsParse ⟨true, false⟩ "# T\n\nA **b** c").textRanges =
      [{ start := 5, stop := 6, bold := true }] := by
  decide

/-- C1: a push whose guard revision no longer matches the remote unit's
current revision (a concurrent edit advanced it after the pull) is
rejected: the remote content is left unmodified, exactly one write call is
made (no retry), and the caller gets the distinct revision-conflict
outcome. -/
theorem pushStaleRevisionConflict (uPull uNow : RemoteUnit) (localText : String)
    (hrev : uPull.revision ≠ uNow.revision) (hdiff : uPull.content ≠ localText) :
    pushRun uPull uNow localText = (uNow, PushOutcome.revisionConflict, 1) := by
  simp [pushRun, hdiff, applyEdits, hrev]

/-- Witness for the stale-push conflict theorem at a concrete stale push. -/
theorem pushStaleRevisionConflictWitness :
    pushRun ⟨1, "a"⟩ ⟨2, "a"⟩ "b" = (⟨2, "a"⟩, PushOutcome.revisionConflict, 1) :=
  pushStaleRevisionConflict ⟨1, "a"⟩ ⟨2, "a"⟩ "b" (by decide) (by decide)

/-- Replaying the script's push batch over a unit's content replaces it with
the local text. -/
theorem applyPushRequests_replace (c t : String) :
    applyPushRequests c (buildPushRequests (c.length + 1) t) = t := by
  by_cases h : c.length + 1 > 1
  · simp [buildPushRequests, h, applyPushRequests]
  · have hc : c.length = 0 := by omega
    have hce : c = "" := by
      cases c with
      | mk data =>
        cases data with
        | nil => rfl
        | cons a l => simp [String.length] at hc
    subst hce
    simp [buildPushRequests, applyPushRequests]

/-- C2: the push path pulls the remote text and revision and compares
verbatim — whenever the pulled text equals the local text it performs zero
write calls; and after one uncontended run pushing some content, running the
push again with the same content performs zero writes. -/
theorem pushCompareIdempotent (uPull uNow : RemoteUnit) (localText : String) :
    (uPull.content = localText → pushRun uPull uNow localText = (uNow, PushOutcome.noDiff, 0)) ∧
    pushRun (pushRun uPull uPull localText).1 (pushRun uPull uPull localText).1 localText
      = ((pushRun uPull uPull localText).1, PushOutcome.noDiff, 0) := by
  constructor
  · intro h
    simp [pushRun, h]
  · by_cases h : uPull.content = localText
    · simp [pushRun, h]
    · have h1 : pushRun uPull uPull localText =
          ({ revision := uPull.revision + 1, content := localText }, PushOutcome.pushed, 1) := by
        simp [pushRun, h, applyEdits, applyPushRequests_replace]
      rw [h1]
      simp [pushRun]

/-- Witness for the compare-before-push theorem: equal content is a no-op
with zero writes, and the second of two identical pushes writes nothing. -/
theorem pushCompareIdempotentWitness :
    pushRun ⟨5, "x"⟩ ⟨7, "y"⟩ "x" = (⟨7, "y"⟩, PushOutcome.noDiff, 0) ∧
    pushRun (pushRun ⟨1, "a"⟩ ⟨1, "a"⟩ "b").1 (pushRun ⟨1, "a"⟩ ⟨1, "a"⟩ "b").1 "b"
      = ((pushRun ⟨1, "a"⟩ ⟨1, "a"⟩ "b").1, PushOutcome.noDiff, 0) :=
  ⟨(pushCompareIdempotent ⟨5, "x"⟩ ⟨7, "y"⟩ "x").1 rfl,
   (pushCompareIdempotent ⟨1, "a"⟩ ⟨1, "a"⟩ "b").2⟩

theorem mergeRec_pullCheckpoint_fileId (b : Rec) (i t : Nat) :
    (mergeRec b (pullCheckpoint i t)).fileId = b.fileId := rfl

theorem mergeRec_pullCheckpoint_tabId (b : Rec) (i t : Nat) :
    (mergeRec b (pullCheckpoint i t)).tabId = b.tabId := rfl

/-- C9: the four store operations behave as claimed for every store state
and note id — bind merges into the existing record or creates one and the
store afterwards holds the merged record; get returns the record or the
not-found signal; updateCheckpoint merges when the record exists but is a
no-op returning null with the file unwritten when it is absent;
markAccessLost sets the flag when the record exists and is likewise a
no-op when it is absent. -/
theorem bindingStoreOps (file : StoredFile) (nid : String) (fields cp r : Rec) :
    (getBinding nid (bindNote nid fields file).1 = some (bindNote nid fields file).2 ∧
      (bindNote nid fields file).2 = mergeRec ((getBinding nid file).getD emptyRec) fields) ∧
    getBinding nid file = mlookup (loadMapping file).notes nid ∧
    (getBinding nid file = none → updateSyncCheckpoint nid cp file = (file, none)) ∧
    (getBinding nid file = some r →
      (updateSyncCheckpoint nid cp file).2 = some (mergeRec r cp) ∧
      getBinding nid (updateSyncCheckpoint nid cp file).1 = some (mergeRec r cp)) ∧
    (getBinding nid file = none → markAccessLost nid file = (file, none)) ∧
    (getBinding nid file = some r →
      (markAccessLost nid file).2 = some { r with accessLost := some true } ∧
      getBinding nid (markAccessLost nid file).1 = some { r with accessLost := some true }) := by
  refine ⟨⟨?_, ?_⟩, rfl, ?_, ?_, ?_, ?_⟩
  · simp [bindNote, getBinding, saveMapping, loadMapping, mlookup_mset_self]
  · rfl
  · intro h
    have h' : mlookup (loadMapping file).notes nid = none := h
    simp [updateSyncCheckpoint, h']
  · intro h
    have h' : mlookup (loadMapping file).notes nid = some r := h
    unfold updateSyncCheckpoint
    rw [h']
    exact ⟨rfl, mlookup_mset_self _ _ _⟩
  · intro h
    have h' : mlookup (loadMapping file).notes nid = none := h
    simp [markAccessLost, h']
  · intro h
    have h' : mlookup (loadMapping file).notes nid = some r := h
    unfold markAccessLost
    rw [h']
    exact ⟨rfl, mlookup_mset_self _ _ _⟩

/-- Witness for the store-operation theorem: an absent record makes
updateCheckpoint a no-op on a missing file, and markAccessLost sets the
flag on a present record of a legacy flat file. -/
theorem bindingStoreOpsWitness :
    updateSyncCheckpoint "a" { lastSyncTs := some 3 } StoredFile.missing =
      (StoredFile.missing, none) ∧
    (markAccessLost "n" (StoredFile.flat [("n", { fileId := some "f" })])).2 =
      some { fileId := some "f", accessLost := some true } :=
  ⟨(bindingStoreOps StoredFile.missing "a" emptyRec { lastSyncTs := some 3 }
      emptyRec).2.2.1 (by decide),
   ((bindingStoreOps (StoredFile.flat [("n", { fileId := some "f" })]) "n" emptyRec
      emptyRec { fileId := some "f" }).2.2.2.2.2 (by decide)).1⟩

theorem updateSyncCheckpoint_some (nid : String) (cp : Rec) (file : StoredFile) (r : Rec)
    (h : mlookup (loadMapping file).notes nid = some r) :
    updateSyncCheckpoint nid cp file =
      (saveMapping { loadMapping file with
          notes := mset (loadMapping file).notes nid (mergeRec r cp) },
        some (mergeRec r cp)) := by
  unfold updateSyncCheckpoint
  rw [h]

theorem markAccessLost_some (nid : String) (file : StoredFile) (r : Rec)
    (h : mlookup (loadMapping file).notes nid = some r) :
    markAccessLost nid file =
      (saveMapping { loadMapping file with
          notes := mset (loadMapping file).notes nid { r with accessLost := some true } },
        some { r with accessLost := some true }) := by
  unfold markAccessLost
  rw [h]

/-- Example state for the poller claims: one note bound to a file and tab. -/
def exRec : Rec := { fileId := some "f", tabId := some "t" }

/-- Example binding store holding the one bound note. -/
def exMapFile : StoredFile := StoredFile.namespaced (some [("n", exRec)]) (some [])

/-- Example remote service: one document revision with one rendered tab. -/
def exEnv : DocsEnv := fun _ => { revisionId := 5, tabs := [("t", "hello")] }

/-- Example initial poller state with an empty shadow directory. -/
def exS0 : PollerState := { mapping := exMapFile, shadows := [], stateFile := some 0 }

/-- Example change event marking the bound file removed. -/
def exChRem : Change := { fileId := "f", removed := true }

/-- Example later change event for the same file, not marked removed. -/
def exChBack : Change := { fileId := "f", removed := false }

/-- C5, counterexample: after a removed change sets `accessLost` on the
bound note (and skips that pull), a subsequent change event for the same
file that is not marked removed still triggers a pull — the shadow gets
written even though the note was never rebound, so pulls are not suppressed
until rebind as the claim states. -/
theorem removalSuppressionCounterexample :
    getBinding "n" (applyChange exEnv 0 exS0 exChRem).mapping =
      some { exRec with accessLost := some true } ∧
    (applyChange exEnv 0 exS0 exChRem).shadows = [] ∧
    mlookup (applyChange exEnv 0 (applyChange exEnv 0 exS0 exChRem) exChBack).shadows "n" =
      some "hello" := by
  decide

/-- C5, amended: a change marking a bound remote object removed sets
`accessLost = true` on that note's binding and skips the pull for that
change; but the flag is never consulted afterwards, so a subsequent change
event for the same bound file that is not marked removed pulls again —
suppression lasts only while the feed keeps reporting the object removed,
not until the note is rebound. -/
theorem removalMarksAccessLost (env : DocsEnv) (ts : Nat) (s : PollerState)
    (ch ch₂ : Change) (noteId : String) (r : Rec) (tabId mdOut : String)
    (hrem : ch.removed = true)
    (hfind : findNoteIdByFileId ch.fileId s.mapping = some noteId)
    (hbind : getBinding noteId s.mapping = some r) :
    (applyChange env ts s ch).shadows = s.shadows ∧
    getBinding noteId (applyChange env ts s ch).mapping =
      some { r with accessLost := some true } ∧
    (ch₂.removed = false → ch₂.fileId = ch.fileId → r.tabId = some tabId →
      mlookup (env ch.fileId).tabs tabId = some mdOut →
      (applyChange env ts (applyChange env ts s ch) ch₂).shadows =
        mset (applyChange env ts s ch).shadows noteId mdOut) := by
  have hs' : applyChange env ts s ch =
      { s with mapping := (markAccessLost noteId s.mapping).1 } := by
    simp [applyChange, hfind, hrem]
  have hma := markAccessLost_some noteId s.mapping r hbind
  have hL : (loadMapping (applyChange env ts s ch).mapping).notes =
      mset (loadMapping s.mapping).notes noteId { r with accessLost := some true } := by
    rw [hs']
    show (loadMapping (markAccessLost noteId s.mapping).1).notes = _
    rw [hma]
    rfl
  have hbind' : getBinding noteId (applyChange env ts s ch).mapping =
      some { r with accessLost := some true } := by
    show mlookup (loadMapping (applyChange env ts s ch).mapping).notes noteId = _
    rw [hL]
    exact mlookup_mset_self _ _ _
  refine ⟨by rw [hs'], hbind', ?_⟩
  intro h2rem h2fid htab hlook
  have hfind' : findNoteIdByFileId ch.fileId (applyChange env ts s ch).mapping =
      some noteId := by
    show findNoteId ch.fileId (loadMapping (applyChange env ts s ch).mapping).notes =
      some noteId
    rw [hL,
      findNoteId_congr ch.fileId _ _
        (keysFileIds_mset (loadMapping s.mapping).notes noteId
          { r with accessLost := some true } r hbind rfl)]
    exact hfind
  have htab' : ({ r with accessLost := some true } : Rec).tabId = some tabId := htab
  set s' := applyChange env ts s ch with hsd
  simp [applyChange, hfind', h2rem, hbind', htab', htab, h2fid, hlook]

/-- Witness for the amended removal theorem at the concrete example. -/
theorem removalMarksAccessLostWitness :
    (applyChange exEnv 0 exS0 exChRem).shadows = exS0.shadows ∧
    getBinding "n" (applyChange exEnv 0 exS0 exChRem).mapping =
      some { exRec with accessLost := some true } ∧
    (exChBack.removed = false → exChBack.fileId = exChRem.fileId → exRec.tabId = some "t" →
      mlookup (exEnv exChRem.fileId).tabs "t" = some "hello" →
      (applyChange exEnv 0 (applyChange exEnv 0 exS0 exChRem) exChBack).shadows =
        mset (applyChange exEnv 0 exS0 exChRem).shadows "n" "hello") :=
  removalMarksAccessLost exEnv 0 exS0 exChRem exChBack "n" exRec "t" "hello"
    (by decide) (by decide) (by decide)

theorem applyChange_idem_shadows (env : DocsEnv) (ts : Nat) (s : PollerState) (ch : Change) :
    (applyChange env ts (applyChange env ts s ch) ch).shadows =
      (applyChange env ts s ch).shadows := by
  by_cases hrem : ch.removed = true
  · rw [applyChange_removed_shadows env ts (applyChange env ts s ch) ch hrem]
  · rcases hfind : findNoteIdByFileId ch.fileId s.mapping with _ | noteId
    · have he : applyChange env ts s ch = s := by simp [applyChange, hfind]
      rw [he, he]
    · rcases hbind : getBinding noteId s.mapping with _ | binding
      · have he : applyChange env ts s ch = s := by simp [applyChange, hfind, hrem, hbind]
        rw [he, he]
      · rcases htab : binding.tabId with _ | tabId
        · have he : applyChange env ts s ch = s := by
            simp [applyChange, hfind, hrem, hbind, htab]
          rw [he, he]
        · rcases hlook : mlookup (env ch.fileId).tabs tabId with _ | mdOut
          · have he : applyChange env ts s ch = s := by
              simp [applyChange, hfind, hrem, hbind, htab, hlook]
            rw [he, he]
          · have hs' : applyChange env ts s ch =
                { s with
                  shadows := mset s.shadows noteId mdOut
                  mapping := (updateSyncCheckpoint noteId
                    (pullCheckpoint (env ch.fileId).revisionId ts) s.mapping).1 } := by
              simp [applyChange, hfind, hrem, hbind, htab, hlook]
            have hupd := updateSyncCheckpoint_some noteId
              (pullCheckpoint (env ch.fileId).revisionId ts) s.mapping binding hbind
            have hL : (loadMapping (applyChange env ts s ch).mapping).notes =
                mset (loadMapping s.mapping).notes noteId
                  (mergeRec binding (pullCheckpoint (env ch.fileId).revisionId ts)) := by
              rw [hs']
              show (loadMapping (updateSyncCheckpoint noteId
                (pullCheckpoint (env ch.fileId).revisionId ts) s.mapping).1).notes = _
              rw [hupd]
              rfl
            have hfind' : findNoteIdByFileId ch.fileId (applyChange env ts s ch).mapping =
                some noteId := by
              show findNoteId ch.fileId (loadMapping (applyChange env ts s ch).mapping).notes =
                some noteId
              rw [hL,
                findNoteId_congr ch.fileId _ _
                  (keysFileIds_mset (loadMapping s.mapping).notes noteId
                    (mergeRec binding (pullCheckpoint (env ch.fileId).revisionId ts)) binding
                    hbind (mergeRec_pullCheckpoint_fileId binding _ _))]
              exact hfind
            have hbind' : getBinding noteId (applyChange env ts s ch).mapping =
                some (mergeRec binding (pullCheckpoint (env ch.fileId).revisionId ts)) := by
              show mlookup (loadMapping (applyChange env ts s ch).mapping).notes noteId = _
              rw [hL]
              exact mlookup_mset_self _ _ _
            have htab' : (mergeRec binding
                (pullCheckpoint (env ch.fileId).revisionId ts)).tabId = some tabId := by
              rw [mergeRec_pullCheckpoint_tabId]
              exact htab
            set s' := applyChange env ts s ch with hsd
            simp [applyChange, hfind', hrem, hbind', htab', hlook]
            rw [hs']
            simp [mset_mset_self]

/-- C8: the cursor state file is persisted only when a page without a
continuation token is reached — a tick that stops (crashes) while every
visited page still carried a continuation leaves the persisted cursor at
its pre-tick value — and re-processing a change is idempotent on the shadow
files: applying the same change twice yields the same shadow map as once
(the pull always fully overwrites the shadow text). -/
theorem cursorPageBoundaryPersistence (env : DocsEnv) (ts : Nat) (feed : Nat → Page)
    (fuel tok : Nat) (s : PollerState) (ch : Change) :
    (reachesFinal feed fuel tok = false →
      (pageLoop env ts feed fuel tok s).1.stateFile = s.stateFile) ∧
    (applyChange env ts (applyChange env ts s ch) ch).shadows =
      (applyChange env ts s ch).shadows := by
  refine ⟨?_, applyChange_idem_shadows env ts s ch⟩
  induction fuel generalizing tok s with
  | zero => intro _; rfl
  | succ n ih =>
    intro h
    unfold reachesFinal at h
    cases hnext : (feed tok).nextPageToken with
    | none =>
      rw [hnext] at h
      simp at h
    | some t' =>
      rw [hnext] at h
      have h' : reachesFinal feed n t' = false := h
      unfold pageLoop
      rw [hnext]
      show (pageLoop env ts feed n t'
        ((feed tok).changes.foldl (applyChange env ts) s)).1.stateFile = s.stateFile
      rw [ih t' _ h', foldl_applyChange_stateFile]

/-- Witness for the cursor-persistence theorem: an endless feed of
continuation pages never persists, and the idempotence conjunct at the
concrete example. -/
def feedEndless : Nat → Page := fun t => ⟨[], some (t + 1), none⟩

theorem cursorPageBoundaryPersistenceWitness :
    (pageLoop exEnv 0 feedEndless 2 0 exS0).1.stateFile = exS0.stateFile ∧
    (applyChange exEnv 0 (applyChange exEnv 0 exS0 exChBack) exChBack).shadows =
      (applyChange exEnv 0 exS0 exChBack).shadows :=
  ⟨(cursorPageBoundaryPersistence exEnv 0 feedEndless 2 0 exS0 exChBack).1 (by decide),
   (cursorPageBoundaryPersistence exEnv 0 feedEndless 2 0 exS0 exChBack).2⟩

theorem pageLoop_succ_some (env : DocsEnv) (ts : Nat) (feed : Nat → Page) (n tok : Nat)
    (s : PollerState) (t' : Nat) (h : (feed tok).nextPageToken = some t') :
    pageLoop env ts feed (n + 1) tok s =
      ((pageLoop env ts feed n t' ((feed tok).changes.foldl (applyChange env ts) s)).1,
        (feed tok).changes ++
          (pageLoop env ts feed n t' ((feed tok).changes.foldl (applyChange env ts) s)).2) := by
  simp only [pageLoop]
  rw [h]

theorem pageLoop_succ_none (env : DocsEnv) (ts : Nat) (feed : Nat → Page) (n tok : Nat)
    (s : PollerState) (h : (feed tok).nextPageToken = none) :
    pageLoop env ts feed (n + 1) tok s =
      ({ (feed tok).changes.foldl (applyChange env ts) s with
          stateFile := some ((feed tok).newStartPageToken.getD tok) },
        (feed tok).changes) := by
  simp only [pageLoop]
  rw [h]

theorem pageLoop_feedOf (env : DocsEnv) (ts : Nat) (all : List Change) (k : Nat) :
    ∀ (fuel tokCur tok₀ : Nat) (s : PollerState),
      s.stateFile = some tok₀ → tok₀ ≤ tokCur → tokCur ≤ all.length →
      (∃ m, (pageLoop env ts (feedOf all k) fuel tokCur s).2 = (all.drop tokCur).take m) ∧
      (∃ tok', (pageLoop env ts (feedOf all k) fuel tokCur s).1.stateFile = some tok' ∧
        tok₀ ≤ tok' ∧ tok' ≤ all.length) := by
  intro fuel
  induction fuel with
  | zero =>
    intro tokCur tok₀ s hs h0 hc
    refine ⟨⟨0, by simp [pageLoop]⟩, tok₀, ?_, le_refl _, le_trans h0 hc⟩
    simpa [pageLoop] using hs
  | succ n ih =>
    intro tokCur tok₀ s hs h0 hc
    by_cases hcont : tokCur + k < all.length
    · have hnext : (feedOf all k tokCur).nextPageToken = some (tokCur + k) := by
        simp [feedOf, hcont]
      have hs1 : ((feedOf all k tokCur).changes.foldl (applyChange env ts) s).stateFile =
          some tok₀ := by
        rw [foldl_applyChange_stateFile]
        exact hs
      obtain ⟨⟨m, hm⟩, tok', ht1, ht2, ht3⟩ :=
        ih (tokCur + k) tok₀ ((feedOf all k tokCur).changes.foldl (applyChange env ts) s) hs1
          (le_trans h0 (Nat.le_add_right _ _)) (le_of_lt hcont)
      rw [pageLoop_succ_some env ts (feedOf all k) n tokCur s (tokCur + k) hnext]
      constructor
      · refine ⟨k + m, ?_⟩
        show (feedOf all k tokCur).changes ++ _ = _
        rw [hm]
        show (all.drop tokCur).take k ++ (all.drop (tokCur + k)).take m = _
        have hd : all.drop (tokCur + k) = (all.drop tokCur).drop k := by
          rw [List.drop_drop, Nat.add_comm]
        rw [hd, ← List.take_add]
      · exact ⟨tok', ht1, ht2, ht3⟩
    · have hnext : (feedOf all k tokCur).nextPageToken = none := by
        simp [feedOf, hcont]
      rw [pageLoop_succ_none env ts (feedOf all k) n tokCur s hnext]
      refine ⟨⟨k, rfl⟩, all.length, ?_, le_trans h0 hc, le_refl _⟩
      rfl

/-- C6: on the first poll run with no stored cursor the poller fetches the
feed's current position token, persists it, and performs no processing and
no pulls at all; and every tick started from a stored cursor examines only
changes at feed positions at or after that cursor and leaves a persisted
cursor no smaller, so no change that occurred before the initially
persisted token is ever processed. -/
theorem pollerInitNoBacklog (env : DocsEnv) (ts : Nat) (all : List Change) (k fuel : Nat)
    (s : PollerState) :
    (s.stateFile = none →
      mainNonWatch env ts (feedOf all k) fuel (getCurrentCursor all) s =
        ({ s with stateFile := some all.length }, [])) ∧
    (∀ tok, s.stateFile = some tok → tok ≤ all.length →
      (∃ m, (processOnce env ts (feedOf all k) fuel s).2 = (all.drop tok).take m) ∧
      (∃ tok', (processOnce env ts (feedOf all k) fuel s).1.stateFile = some tok' ∧
        tok ≤ tok' ∧ tok' ≤ all.length)) := by
  constructor
  · intro h
    simp [mainNonWatch, initIfNeeded, h, getCurrentCursor]
  · intro tok h hle
    have hp : processOnce env ts (feedOf all k) fuel s =
        pageLoop env ts (feedOf all k) fuel tok s := by
      simp [processOnce, h]
    rw [hp]
    exact pageLoop_feedOf env ts all k fuel tok tok s h (le_refl _) hle

/-- One-change feed used by the poller witnesses. -/
def exAll : List Change := [exChBack]

/-- Witness for the no-backlog theorem: a fresh state persists the current
token with nothing processed, and a stored cursor yields a suffix prefix. -/
theorem pollerInitNoBacklogWitness :
    mainNonWatch exEnv 0 (feedOf exAll 1) 3 (getCurrentCursor exAll)
      { mapping := exMapFile, shadows := [], stateFile := none } =
      ({ mapping := exMapFile, shadows := [], stateFile := some exAll.length }, []) ∧
    ((∃ m, (processOnce exEnv 0 (feedOf exAll 1) 3 exS0).2 = (exAll.drop 0).take m) ∧
      (∃ tok', (processOnce exEnv 0 (feedOf exAll 1) 3 exS0).1.stateFile = some tok' ∧
        0 ≤ tok' ∧ tok' ≤ exAll.length)) :=
  ⟨(pollerInitNoBacklog exEnv 0 exAll 1 3
      { mapping := exMapFile, shadows := [], stateFile := none }).1 rfl,
   (pollerInitNoBacklog exEnv 0 exAll 1 3 exS0).2 0 rfl (by decide)⟩
